import Mathlib

/-!
Verification development for the log-to-scan matching engine of
`s05_copy_events.py` (class `Unpacker`).  The definitions below are a
shallow embedding of the matching logic: event files and log files are
represented by their path strings, the per-subject-session manifest
(`*_scans.tsv`) is a list of rows, and the nested lookup dictionaries
are association lists.  Exceptions of the Python code are modelled with
`Except`.
-/

namespace Slang

open List

instance {ε α : Type} [DecidableEq ε] [DecidableEq α] : DecidableEq (Except ε α) :=
  fun a b =>
    match a, b with
    | Except.ok x, Except.ok y =>
      if h : x = y then isTrue (by rw [h]) else isFalse (by simp [h])
    | Except.error x, Except.error y =>
      if h : x = y then isTrue (by rw [h]) else isFalse (by simp [h])
    | Except.ok _, Except.error _ => isFalse (by simp)
    | Except.error _, Except.ok _ => isFalse (by simp)

/-- Byte-wise (code-point) comparison of characters, mirroring how Python
and pandas compare strings lexicographically. -/
def charLeNat (a b : Char) : Prop := a.toNat ≤ b.toNat

/-- Boolean lexicographic order on lists of characters (code-point order),
the order used by pandas `sort_values` on string columns. -/
def strLeAux : List Char → List Char → Bool
  | [], _ => true
  | _ :: _, [] => false
  | a :: as, b :: bs =>
    if a.toNat < b.toNat then true
    else if b.toNat < a.toNat then false
    else strLeAux as bs

/-- Boolean lexicographic order on strings. -/
def strLe (s t : String) : Bool := strLeAux s.data t.data

/-- Insert an element into a list assumed sorted by `key`, keeping it sorted.
Used to model the behaviour of pandas `sort_values` (ascending sort by a
string-valued column). -/
def insertByKey (key : α → String) (x : α) : List α → List α
  | [] => [x]
  | y :: ys => if strLe (key x) (key y) then x :: y :: ys else y :: insertByKey key x ys

/-- Sort a list ascending by a string-valued key, modelling pandas
`sort_values` on a string column. -/
def sortByKey (key : α → String) (l : List α) : List α :=
  l.foldr (insertByKey key) []

/-- Whether `pat` is a prefix of `l` (helper for the substring test). -/
def isPrefixChars : List Char → List Char → Bool
  | [], _ => true
  | _ :: _, [] => false
  | a :: as, b :: bs => a == b && isPrefixChars as bs

/-- Whether `pat` occurs inside `s` as a contiguous substring. -/
def containsSub (s pat : List Char) : Bool :=
  match s with
  | [] => pat.isEmpty
  | _ :: rest => isPrefixChars pat s || containsSub rest pat

/-- Substring test, modelling the Python operator `pat in s`. -/
def strContains (s pat : String) : Bool := containsSub s.data pat.data

/-- Helper for `splitOnChar`: scan the characters, flushing the accumulated
field at every separator. -/
def splitOnCharAux (sep : Char) : List Char → List Char → List (List Char)
  | [], acc => [acc.reverse]
  | c :: rest, acc =>
    if c == sep then acc.reverse :: splitOnCharAux sep rest []
    else splitOnCharAux sep rest (c :: acc)

/-- Models Python `s.split(sep)` for a one-character separator (the only kind
the source uses): split into the fields between occurrences of `sep`,
keeping empty fields. -/
def splitOnChar (sep : Char) (s : String) : List String :=
  (splitOnCharAux sep s.data []).map String.mk

/-- Models Python `sep.join(parts)`. -/
def joinWith (sep : String) : List String → String
  | [] => ""
  | [x] => x
  | x :: y :: rest => x ++ sep ++ joinWith sep (y :: rest)

/-- Models Python `session.lstrip(STR_ZERO)`: drop all leading zero characters. -/
def strip0 (s : String) : String := String.mk (s.data.dropWhile (fun c => c == '0'))

/-- Models Python `str(int(session))` for all-digit session labels: leading
zeros are removed, except that an all-zero label becomes the single digit 0. -/
def intNorm (s : String) : String :=
  let t := strip0 s
  if t = "" then "0" else t

/-- Models `pathlib.Path.name`: the final path component. -/
def basename (s : String) : String := (splitOnChar '/' s).getLastD ""

/-- Embeds `Unpacker.get_scanname` (src/s05_copy_events.py:219): converts an
events filename into the corresponding scan filename relative to the
subject/session directory; other strings are returned unchanged. -/
def get_scanname (e : String) : String :=
  if strContains e "_events" then
    joinWith "_" ((splitOnChar '_' ("func/" ++ e)).dropLast ++ ["bold.nii.gz"])
  else e

/-- Embeds `Unpacker.get_logtime` (src/s05_copy_events.py:394): parses the
creation timestamp encoded in a log filename (`..._2022_04_30_1017.csv`) into
the ISO-like form used by the manifest acquisition times. -/
def get_logtime (l : String) : String :=
  let desc := splitOnChar '_' ((splitOnChar '.' (basename l)).headD "")
  let offset : Nat := if desc.getLast? = some "events" then 1 else 0
  let year := (desc[desc.length - (4 + offset)]?).getD ""
  let month := (desc[desc.length - (3 + offset)]?).getD ""
  let day := (desc[desc.length - (2 + offset)]?).getD ""
  let time := (desc[desc.length - (1 + offset)]?).getD ""
  let time2 := time.take 2 ++ ":" ++ (time.drop 2).take 2 ++ ":00.000000"
  year ++ "-" ++ month ++ "-" ++ day ++ "T" ++ time2

/-- Embeds `Unpacker.get_day` (src/s05_copy_events.py:391): the calendar-day
part of a timestamp string (everything before the first `T`). -/
def get_day (t : String) : String := (splitOnChar 'T' t).headD ""

/-- One row of the per-subject-session manifest (`*_scans.tsv`): scan
filename, acquisition time, and the log-filename column added by the engine
(meaningful only when the column is present, see `Mapping.hasLogCol`). -/
structure Row where
  filename : String
  acq_time : String
  filename_log : String
deriving DecidableEq, Repr

/-- The in-memory manifest table (`self.mapping`): its rows, and whether the
`filename_log` column has been added. -/
structure Mapping where
  rows : List Row
  hasLogCol : Bool
deriving DecidableEq, Repr

/-- The exceptions raised by the matching engine.  `logScanAssignment` embeds
`LogScanAssignmentError` and `manualChangesNeeded` embeds
`ManualChangesNeededError`; the payload is the pair of candidate file lists
attached to the message when raised by `resolve_times` (`none` when raised
bare in `add_mapping`).  `uncaught` stands for exceptions no caller handles
(`IndexError` on an empty candidate list, `KeyError` on the event index in
the `run == 0` path). -/
inductive MatchErr where
  | logScanAssignment (info : Option (List String × List String))
  | manualChangesNeeded (info : Option (List String × List String))
  | uncaught
deriving DecidableEq, Repr

/-- Innermost level of a lookup dictionary: run number to list of files,
in insertion order. -/
abbrev Bucket := List (Nat × List String)

/-- task → run-level map. -/
abbrev TaskMap := List (String × Bucket)

/-- subject → task-level map. -/
abbrev SubjMap := List (String × TaskMap)

/-- A four-level lookup dictionary session → subject → task → run → files,
modelling `lookup_events` / `lookup_logs`. -/
abbrev Lookup := List (String × SubjMap)

/-- Association-list lookup, modelling Python dictionary access. -/
def findA [DecidableEq κ] (l : List (κ × β)) (k : κ) : Option β :=
  (l.find? (fun p => decide (p.1 = k))).map (fun p => p.2)

/-- Three-level dictionary access `d[ses][sub][task]`; `none` models a
`KeyError` at any of the three levels. -/
def lookup3 (d : Lookup) (ses sub task : String) : Option Bucket :=
  match findA d ses with
  | none => none
  | some m1 =>
    match findA m1 sub with
    | none => none
    | some m2 => findA m2 task

/-- Embeds `Unpacker.flatten` (src/s05_copy_events.py:185): flatten the
run-level dictionary values into one list of files, in insertion order. -/
def flatten (b : Bucket) : List String := (b.map (fun p => p.2)).flatten

/-- The scan filenames derived from a list of events files
(`s_files` in `resolve_times`). -/
def s_files_of (ef : List String) : List String := ef.map get_scanname

/-- The manifest rows selected by `resolve_times`
(`self.mapping.loc[self.mapping[FILENAME].isin(s_files)]`). -/
def sel_runs (mapping : List Row) (ef : List String) : List Row :=
  mapping.filter (fun r => decide (r.filename ∈ s_files_of ef))

/-- The selected manifest rows sorted ascending by acquisition time
(`runs.sort_values(ACQ_TIME)`). -/
def sorted_runs (mapping : List Row) (ef : List String) : List Row :=
  sortByKey (fun r => r.acq_time) (sel_runs mapping ef)

/-- The log files sorted ascending by their parsed creation time
(`logs.sort_values(LOG_TIMES)`). -/
def sorted_logs (lf : List String) : List String := sortByKey get_logtime lf

/-- The distinct calendar days of the selected scans, sorted ascending
(`np.unique(runs[ACQ_DAY])`). -/
def days_runs (mapping : List Row) (ef : List String) : List String :=
  sortByKey (fun d => d) (((sorted_runs mapping ef).map (fun r => get_day r.acq_time)).dedup)

/-- The per-day pairing loop at the end of `resolve_times`
(src/s05_copy_events.py:376): for each day of the selected scans, compare the
cardinality of the two day-buckets, raising `ManualChangesNeededError` (with
both candidate lists) on a mismatch, and otherwise pair the day's scans and
logs by rank. -/
def resolveDays (ef lf : List String) (runs : List Row) (logs : List String) :
    List String → Except MatchErr (List (String × String))
  | [] => .ok []
  | d :: ds =>
    let rd := runs.filter (fun r => decide (get_day r.acq_time = d))
    let ld := logs.filter (fun l => decide (get_day (get_logtime l) = d))
    if rd.length = ld.length then
      match resolveDays ef lf runs logs ds with
      | .ok rest => .ok ((rd.map (fun r => r.filename)).zip ld ++ rest)
      | .error e => .error e
    else .error (.manualChangesNeeded (some (ef, lf)))

/-- Embeds `Unpacker.resolve_times` (src/s05_copy_events.py:308): connect
event and log files based on timing.  Unequal list lengths raise
`ManualChangesNeededError` when `run == 0` and `LogScanAssignmentError`
otherwise; equally long lists are bucketed per calendar day of the selected
manifest rows and paired by rank within each day. -/
def resolve_times (mapping : List Row) (ef lf : List String) (run : Nat) :
    Except MatchErr (List (String × String)) :=
  if ef.length = lf.length then
    resolveDays ef lf (sorted_runs mapping ef) (sorted_logs lf) (days_runs mapping ef)
  else if run = 0 then Except.error (.manualChangesNeeded (some (ef, lf)))
  else Except.error (.logScanAssignment (some (ef, lf)))

/-- The candidate-retrieval part of `Unpacker.add_mapping`
(src/s05_copy_events.py:278): for `run == 0`, flatten all runs of the event
bucket and of the log bucket (log side addressed with the zero-stripped
session), substituting the placeholder list when the log side has no entry;
for `run != 0`, require the run key on the log side (addressed with the
`str(int(...))`-normalized session), raising `LogScanAssignmentError` when
only the run key is missing and `ManualChangesNeededError` when a dictionary
level is missing (`except KeyError`). -/
def get_candidates (ev lg : Lookup) (subject session task : String) (run : Nat) :
    Except MatchErr (List String × List String) :=
  if run = 0 then
    match lookup3 ev session subject task with
    | none => Except.error .uncaught
    | some eb =>
      let lf :=
        match lookup3 lg (strip0 session) subject task with
        | none => ["no file found"]
        | some lb => flatten lb
      Except.ok (flatten eb, lf)
  else
    match lookup3 lg (intNorm session) subject task with
    | none => Except.error (.manualChangesNeeded none)
    | some lbt =>
      if (findA lbt run).isSome then
        match lookup3 ev session subject task with
        | none => Except.error (.manualChangesNeeded none)
        | some ebt =>
          match findA ebt run with
          | none => Except.error (.manualChangesNeeded none)
          | some efs =>
            match lookup3 lg (strip0 session) subject task with
            | none => Except.error (.manualChangesNeeded none)
            | some lbt2 =>
              match findA lbt2 run with
              | none => Except.error (.manualChangesNeeded none)
              | some lfs => Except.ok (efs, lfs)
      else Except.error (.logScanAssignment none)

/-- The pairing part of `Unpacker.add_mapping` (src/s05_copy_events.py:299):
more than one candidate on either side defers to `resolve_times`; otherwise
the single candidates are paired directly (`IndexError` on an empty list is
an uncaught crash). -/
def pair_up (mapping : List Row) (ef lf : List String) (run : Nat) :
    Except MatchErr (List (String × String)) :=
  if 1 < ef.length ∨ 1 < lf.length then resolve_times mapping ef lf run
  else
    match ef, lf with
    | e :: _, l :: _ => Except.ok [(e, l)]
    | _, _ => Except.error .uncaught

/-- Embeds `Unpacker.add_mapping` (src/s05_copy_events.py:259): retrieve the
candidate lists for one (subject, session, task, run) bucket and pair them.
The returned pairs are the `scan_log` list handed to `add_log`. -/
def add_mapping (ev lg : Lookup) (mapping : List Row)
    (subject session task : String) (run : Nat) :
    Except MatchErr (List (String × String)) :=
  match get_candidates ev lg subject session task run with
  | Except.error e => Except.error e
  | Except.ok (ef, lf) => pair_up mapping ef lf run

/-- The row update performed by `add_log` for one pair: set the log filename
on the rows whose `filename` matches the derived scan name.  (Proof helper:
`add_log` is literally a map of this update over the rows.) -/
def upd (p : String × String) (r : Row) : Row :=
  if r.filename = get_scanname p.1 then { r with filename_log := p.2 } else r

/-- The value the `filename_log` cell of a row with filename `f` holds after
all pairs of `ps` have been applied: the log of the last pair whose derived
scan name is `f` (proof helper for the idempotence of the writer). -/
def lastMatch (ps : List (String × String)) (f : String) : Option String :=
  match ps with
  | [] => none
  | p :: rest =>
    match lastMatch rest f with
    | some v => some v
    | none => if f = get_scanname p.1 then some p.2 else none

/-- Apply the cumulative effect of a pair list to one row (proof helper). -/
def gLast (ps : List (String × String)) (r : Row) : Row :=
  match lastMatch ps r.filename with
  | some v => { r with filename_log := v }
  | none => r

/-- Adding the `filename_log` column when it is absent (the first two lines
of `add_log`). -/
def ensure_col (m : Mapping) : Mapping :=
  if m.hasLogCol then m
  else ⟨m.rows.map (fun r => { r with filename_log := "" }), true⟩

/-- Embeds `Unpacker.add_log` (src/s05_copy_events.py:241): add the
`filename_log` column if absent (filled with the empty string), then set it
to the log filename on every row whose `filename` equals the scan name
derived from the events file. -/
def add_log (m : Mapping) (e_file l_file : String) : Mapping :=
  let m2 := ensure_col m
  ⟨m2.rows.map (upd (e_file, l_file)), m2.hasLogCol⟩

/-- The final loop of `Unpacker.add_mapping` together with the persistence in
`write_mapping`: record every resolved (scan, log) pair in the manifest via
`add_log`.  The table written to disk is a deterministic serialization of the
resulting `Mapping`. -/
def write_pairs (m : Mapping) (ps : List (String × String)) : Mapping :=
  ps.foldl (fun acc p => add_log acc p.1 p.2) m

/-- Outcome of processing one run inside `write_mapping`
(src/s05_copy_events.py:157): success on the first attempt; success after the
logged retry on `LogScanAssignmentError`; the reported
`ManualChangesNeededError` after a failed retry; the reported
`ManualChangesNeededError` on the first attempt; or an uncaught exception. -/
inductive RunOutcome where
  | ok (pairs : List (String × String))
  | retried (pairs : List (String × String))
  | retryFailed
  | manualError
  | crashed
deriving DecidableEq, Repr

/-- Maps the result of the sentinel-run retry to the outcome of the enclosing
`except LogScanAssignmentError` handler in `write_mapping`: a second
`ManualChangesNeededError` is caught and reported, anything else uncaught. -/
def retryOutcome : Except MatchErr (List (String × String)) → RunOutcome
  | Except.ok ps => .retried ps
  | Except.error (.manualChangesNeeded _) => .retryFailed
  | Except.error _ => .crashed

/-- Embeds the per-run try/except structure of `Unpacker.write_mapping`
(src/s05_copy_events.py:159): call `add_mapping`; on
`LogScanAssignmentError` log a warning and retry once with `run = 0`; on
`ManualChangesNeededError` report the error. -/
def process_run (ev lg : Lookup) (mapping : List Row)
    (subject session task : String) (run : Nat) : RunOutcome :=
  match add_mapping ev lg mapping subject session task run with
  | Except.ok ps => .ok ps
  | Except.error (.logScanAssignment _) =>
      retryOutcome (add_mapping ev lg mapping subject session task 0)
  | Except.error (.manualChangesNeeded _) => .manualError
  | Except.error .uncaught => .crashed

/-- The parsed content of a log file: the columns `transform_log_content`
and `extract_priming_onsets` may access, each present or not.  Numeric
columns are modelled with exact rationals. -/
structure LogTable where
  onset : Option (List ℚ) := none
  t_start : Option (List ℚ) := none
  t_stop : Option (List ℚ) := none
  duration : Option (List ℚ) := none
  trial_type : Option (List String) := none
  num : Option (List Int) := none
  mod : Option (List String) := none
  condition : Option (List String) := none
  truth : Option (List String) := none
  mod_prime : Option (List String) := none
  mod_target : Option (List String) := none
  num_prime : Option (List Int) := none
  num_target : Option (List Int) := none
  target_started : Option (List (List ℚ)) := none
  target_stopped : Option (List (List ℚ)) := none
deriving DecidableEq, Repr

/-- Result of reading a recorded log path: the file may be missing
(`os.path.exists` false), present but with empty or corrupt content
(`pd.read_csv` raises, e.g. `EmptyDataError`), or a parsed table. -/
inductive FileRead where
  | absent
  | unreadable
  | table (t : LogTable)

/-- Errors escaping the content transformer: a failed `pd.read_csv` on
present-but-unparseable content, or a `KeyError` from accessing a column the
table does not have.  Neither is caught anywhere in the program. -/
inductive TErr where
  | readError
  | keyError
deriving DecidableEq, Repr

/-- One row of the canonical onset table produced by the transformer. -/
structure EventRow where
  onset : ℚ
  duration : ℚ
  trial_type : String
  modality : Option String := none
deriving DecidableEq, Repr

/-- Round-half-to-even to the nearest integer, the rounding used by
`pandas.Series.round` (IEEE-754 bankers rounding, exact on rationals).
The fractional part of `x` is compared with one half, and a tie picks the
even neighbour. -/
def roundHalfEven (x : ℚ) : ℤ :=
  if x - (⌊x⌋ : ℚ) < 1/2 then ⌊x⌋
  else if 1/2 < x - (⌊x⌋ : ℚ) then ⌊x⌋ + 1
  else if 2 ∣ ⌊x⌋ then ⌊x⌋ else ⌊x⌋ + 1

/-- `Series.round(decimals=2)`. -/
def round2 (x : ℚ) : ℚ := (roundHalfEven (100 * x) : ℚ) / 100

/-- The regex replacement applied to the `mod` column
(`str.replace` removing blanks and apostrophes, code points 32 and 39). -/
def stripSpaceApos (s : String) : String :=
  String.mk (s.data.filter (fun c => decide (c.toNat ≠ 32 ∧ c.toNat ≠ 39)))

/-- The `onset` output column (src/s05_copy_events.py:526): the `onset`
column verbatim, else `t_start` rounded to two decimals, else `KeyError`. -/
def col_onset (t : LogTable) : Except TErr (List ℚ) :=
  match t.onset with
  | some o => Except.ok o
  | none =>
    match t.t_start with
    | some s => Except.ok (s.map round2)
    | none => Except.error .keyError

/-- The `duration` output column (src/s05_copy_events.py:531): when both
`t_stop` and `t_start` are present, their rounded difference, else the
`duration` column verbatim, else `KeyError`. -/
def col_duration (t : LogTable) : Except TErr (List ℚ) :=
  match t.t_stop, t.t_start with
  | some sp, some st => Except.ok ((sp.zip st).map (fun p => round2 (p.1 - p.2)))
  | _, _ =>
    match t.duration with
    | some d => Except.ok d
    | none => Except.error .keyError

/-- The `trial_type` output column (src/s05_copy_events.py:537): the
`trial_type` column verbatim, else `num` and cleaned `mod` joined by an
underscore, else `condition` and `truth` joined by an underscore; with none
of those, the later `events[TRIAL_TYPE]` access raises `KeyError`. -/
def col_trial_type (t : LogTable) : Except TErr (List String) :=
  match t.trial_type with
  | some tt => Except.ok tt
  | none =>
    match t.num with
    | some ns =>
      match t.mod with
      | some ms =>
        Except.ok ((ns.zip ms).map (fun p => toString p.1 ++ "_" ++ stripSpaceApos p.2))
      | none => Except.error .keyError
    | none =>
      match t.condition, t.truth with
      | some cs, some ts => Except.ok ((cs.zip ts).map (fun p => p.1 ++ "_" ++ p.2))
      | _, _ => Except.error .keyError

/-- Assemble the three output columns into rows (`pd.concat(..., axis=1)`). -/
def mkRows (os ds : List ℚ) (ts : List String) : List EventRow :=
  ((os.zip ds).zip ts).map (fun p => ⟨p.1.1, p.1.2, p.2, none⟩)

/-- Minimum of a rational list (`np.min` applied to a per-trial list). -/
def qmin : List ℚ → ℚ
  | [] => 0
  | x :: xs => xs.foldl min x

/-- Embeds `Unpacker.extract_priming_onsets` (src/s05_copy_events.py:471):
keep the non-pause rows, take onsets and durations from the minima of the
per-trial start/stop lists, classify `prime` vs `nonprime` by comparing the
prime and target numerosity, and join the two modality columns. -/
def extract_priming_onsets (t : LogTable) : Except TErr (List EventRow) :=
  match t.mod_prime, t.target_started, t.target_stopped,
        t.num_prime, t.num_target, t.mod_target with
  | some mps, some starts, some stops, some nps, some nts, some mts =>
    let rows := ((((mps.zip starts).zip stops).zip nps).zip nts).zip mts
    let kept := rows.filter (fun r => decide (r.1.1.1.1.1 ≠ "pause"))
    Except.ok (kept.map (fun r =>
      match r with
      | (((((mp, st), sp), np), nt), mt) =>
        ⟨qmin st, qmin sp - qmin st,
         if np = nt then "prime" else "nonprime",
         some (mp ++ "_" ++ mt)⟩))
  | _, _, _, _, _, _ => Except.error .keyError

/-- Embeds `Unpacker.transform_log_content` (src/s05_copy_events.py:496):
`Except.ok none` models the early return (no-op) when the recorded log path
does not exist; otherwise the log is parsed and rewritten into the canonical
onset table (rows whose trial type contains `pause` removed), which the
Python code then writes over the events file.  `priming` models
`PRIMING in self.layout.get_tasks()`. -/
def transform_log_content (priming : Bool) (fs : String → FileRead)
    (log_filename : String) : Except TErr (Option (List EventRow)) :=
  match fs log_filename with
  | .absent => Except.ok none
  | .unreadable => Except.error .readError
  | .table onsets =>
    if priming then
      match extract_priming_onsets onsets with
      | Except.ok evs => Except.ok (some evs)
      | Except.error e => Except.error e
    else
      match col_onset onsets with
      | Except.error e => Except.error e
      | Except.ok os =>
        match col_duration onsets with
        | Except.error e => Except.error e
        | Except.ok ds =>
          match col_trial_type onsets with
          | Except.error e => Except.error e
          | Except.ok ts =>
            Except.ok (some ((mkRows os ds ts).filter
              (fun r => !(strContains r.trial_type "pause"))))

/-- Embeds `Unpacker.extract_onsets` (src/s05_copy_events.py:436): for every
row of a written manifest, transform the recorded log's content into the
events file; with no `filename_log` column the manifest is skipped with a
message.  There is no exception handler, so the first raising row aborts the
whole loop (modelled by the `Except` short-circuit of `mapM`). -/
def extract_onsets (priming : Bool) (fs : String → FileRead) (m : Mapping) :
    Except TErr (List (String × Option (List EventRow))) :=
  if m.hasLogCol then
    m.rows.mapM (fun r =>
      match transform_log_content priming fs r.filename_log with
      | Except.ok res => Except.ok (r.filename, res)
      | Except.error e => Except.error e)
  else Except.ok []

/-- The rank pairing `resolve_times` builds for one calendar day: the
day-`d` scans (by manifest acquisition day) zipped with the day-`d` logs
(by parsed creation day), both taken from the already-sorted lists
(proof abbreviation for the per-day loop body). -/
def day_zip (runs : List Row) (logs : List String) (d : String) :
    List (String × String) :=
  ((runs.filter (fun r => decide (get_day r.acq_time = d))).map
    (fun r => r.filename)).zip
  (logs.filter (fun l => decide (get_day (get_logtime l) = d)))

/-! ### General lemmas about the string order and the sort -/

theorem strLeAux_cons_iff (a b : Char) (as bs : List Char) :
    strLeAux (a :: as) (b :: bs) = true ↔
      a.toNat < b.toNat ∨ (a.toNat = b.toNat ∧ strLeAux as bs = true) := by
  simp only [strLeAux]
  by_cases h1 : a.toNat < b.toNat
  · simp [h1]
  · by_cases h2 : b.toNat < a.toNat
    · simp [h1, h2]
      omega
    · have h3 : a.toNat = b.toNat := by omega
      simp [h1, h2, h3]

theorem strLeAux_total (as bs : List Char) :
    strLeAux as bs = true ∨ strLeAux bs as = true := by
  induction as generalizing bs with
  | nil => left; rfl
  | cons a as ih =>
    cases bs with
    | nil => right; rfl
    | cons b bs =>
      rw [strLeAux_cons_iff, strLeAux_cons_iff]
      rcases Nat.lt_trichotomy a.toNat b.toNat with h | h | h
      · left; left; exact h
      · rcases ih bs with hh | hh
        · left; right; exact ⟨h, hh⟩
        · right; right; exact ⟨h.symm, hh⟩
      · right; left; exact h

theorem strLeAux_trans {as bs cs : List Char}
    (h1 : strLeAux as bs = true) (h2 : strLeAux bs cs = true) :
    strLeAux as cs = true := by
  induction as generalizing bs cs with
  | nil => rfl
  | cons a as ih =>
    cases bs with
    | nil => simp [strLeAux] at h1
    | cons b bs =>
      cases cs with
      | nil => simp [strLeAux] at h2
      | cons c cs =>
        rw [strLeAux_cons_iff] at h1 h2 ⊢
        rcases h1 with h1 | ⟨h1e, h1r⟩
        · rcases h2 with h2 | ⟨h2e, _⟩
          · left; omega
          · left; omega
        · rcases h2 with h2 | ⟨h2e, h2r⟩
          · left; omega
          · right; exact ⟨by omega, ih h1r h2r⟩

theorem strLeAux_antisymm {as bs : List Char}
    (h1 : strLeAux as bs = true) (h2 : strLeAux bs as = true) : as = bs := by
  induction as generalizing bs with
  | nil =>
    cases bs with
    | nil => rfl
    | cons b bs => simp [strLeAux] at h2
  | cons a as ih =>
    cases bs with
    | nil => simp [strLeAux] at h1
    | cons b bs =>
      rw [strLeAux_cons_iff] at h1 h2
      rcases h1 with h1 | ⟨h1e, h1r⟩
      · rcases h2 with h2 | ⟨h2e, _⟩
        · omega
        · omega
      · rcases h2 with h2 | ⟨h2e, h2r⟩
        · omega
        · have heq : a = b := Char.eq_of_val_eq (UInt32.ext h1e)
          rw [heq, ih h1r h2r]

theorem strLe_total (s t : String) : strLe s t = true ∨ strLe t s = true :=
  strLeAux_total s.data t.data

theorem strLe_trans {s t u : String} (h1 : strLe s t = true)
    (h2 : strLe t u = true) : strLe s u = true :=
  strLeAux_trans h1 h2

theorem strLe_antisymm {s t : String} (h1 : strLe s t = true)
    (h2 : strLe t s = true) : s = t := by
  cases s; cases t
  exact congrArg String.mk (strLeAux_antisymm h1 h2)

theorem insertByKey_perm (key : α → String) (x : α) (l : List α) :
    insertByKey key x l ~ x :: l := by
  induction l with
  | nil => rfl
  | cons y ys ih =>
    by_cases h : strLe (key x) (key y) = true
    · simp [insertByKey, h]
    · simp only [insertByKey, h]
      rw [if_neg (by simp [h])]
      calc y :: insertByKey key x ys ~ y :: x :: ys := (ih.cons y)
        _ ~ x :: y :: ys := List.Perm.swap x y ys

theorem sortByKey_perm (key : α → String) (l : List α) : sortByKey key l ~ l := by
  induction l with
  | nil => rfl
  | cons y ys ih =>
    calc sortByKey key (y :: ys) ~ y :: sortByKey key ys := insertByKey_perm key y _
      _ ~ y :: ys := ih.cons y

theorem insertByKey_pairwise (key : α → String) (x : α) (l : List α)
    (hl : l.Pairwise (fun a b => strLe (key a) (key b) = true)) :
    (insertByKey key x l).Pairwise (fun a b => strLe (key a) (key b) = true) := by
  induction l with
  | nil => simp [insertByKey]
  | cons y ys ih =>
    rcases List.pairwise_cons.mp hl with ⟨hy, hys⟩
    by_cases h : strLe (key x) (key y) = true
    · simp only [insertByKey, h, if_pos]
      refine List.pairwise_cons.mpr ⟨?_, hl⟩
      intro z hz
      rcases hz with _ | hz
      · exact h
      · exact strLe_trans h (hy z (by assumption))
    · simp only [insertByKey, h]
      rw [if_neg (by simp [h])]
      have hyx : strLe (key y) (key x) = true := by
        rcases strLe_total (key x) (key y) with hh | hh
        · exact absurd hh h
        · exact hh
      refine List.pairwise_cons.mpr ⟨?_, ih hys⟩
      intro z hz
      have hz2 : z ∈ x :: ys := (insertByKey_perm key x ys).mem_iff.mp hz
      rcases hz2 with _ | hz2
      · exact hyx
      · exact hy z (by assumption)

theorem sortByKey_pairwise (key : α → String) (l : List α) :
    (sortByKey key l).Pairwise (fun a b => strLe (key a) (key b) = true) := by
  induction l with
  | nil => simp [sortByKey]
  | cons y ys ih => exact insertByKey_pairwise key y _ ih

/-- Two lists sorted by the same key that are permutations of each other and
have pairwise-distinct keys are equal: with distinct keys the sorted order is
unique. -/
theorem sorted_perm_nodup_key_eq (key : α → String) :
    ∀ (l l' : List α), l.Pairwise (fun a b => strLe (key a) (key b) = true) →
    l'.Pairwise (fun a b => strLe (key a) (key b) = true) →
    l ~ l' → (l.map key).Nodup → l = l'
  | [], [], _, _, _, _ => rfl
  | [], b :: l', _, _, hp, _ => absurd hp.symm (by simp)
  | a :: l, [], _, _, hp, _ => absurd hp (by simp)
  | a :: l, b :: l', h1, h2, hp, hnd => by
    rcases List.pairwise_cons.mp h1 with ⟨ha, h1t⟩
    rcases List.pairwise_cons.mp h2 with ⟨hb, h2t⟩
    have hnd2 : (key a) ∉ (l.map key) ∧ (l.map key).Nodup := by
      rw [List.map_cons] at hnd
      exact List.nodup_cons.mp hnd
    have hab : a = b := by
      have hbmem : b = a ∨ b ∈ l :=
        List.mem_cons.mp (hp.symm.subset (List.mem_cons_self b l'))
      rcases hbmem with heq | hbmem
      · exact heq.symm
      · have hamem : a = b ∨ a ∈ l' :=
          List.mem_cons.mp (hp.subset (List.mem_cons_self a l))
        rcases hamem with heq | hamem
        · exact heq
        · have k1 : strLe (key a) (key b) = true := ha b hbmem
          have k2 : strLe (key b) (key a) = true := hb a hamem
          have hk : key a = key b := strLe_antisymm k1 k2
          exact absurd (hk ▸ List.mem_map_of_mem key hbmem) hnd2.1
    subst hab
    have hpt : l ~ l' := hp.cons_inv
    rw [sorted_perm_nodup_key_eq key l l' h1t h2t hpt hnd2.2]

/-! ### The Mapping Writer -/

theorem ensure_col_hasLogCol (m : Mapping) : (ensure_col m).hasLogCol = true := by
  by_cases h : m.hasLogCol
  · simp [ensure_col, h]
  · simp [ensure_col, h]

theorem add_log_shape (m : Mapping) (e l : String) :
    add_log m e l = ⟨(ensure_col m).rows.map (upd (e, l)), true⟩ := by
  simp [add_log, ensure_col_hasLogCol]

theorem upd_filename (p : String × String) (r : Row) :
    (upd p r).filename = r.filename := by
  unfold upd
  split <;> rfl

theorem gLast_filename (ps : List (String × String)) (r : Row) :
    (gLast ps r).filename = r.filename := by
  unfold gLast
  cases lastMatch ps r.filename <;> rfl

theorem gLast_upd (p : String × String) (ps : List (String × String)) (r : Row) :
    gLast ps (upd p r) = gLast (p :: ps) r := by
  unfold gLast
  rw [upd_filename]
  cases h : lastMatch ps r.filename with
  | some v =>
    simp only [lastMatch, h]
    unfold upd
    split <;> rfl
  | none =>
    simp only [lastMatch, h]
    unfold upd
    by_cases hf : r.filename = get_scanname p.1
    · simp [hf]
    · simp [hf]

theorem gLast_idem (ps : List (String × String)) (r : Row) :
    gLast ps (gLast ps r) = gLast ps r := by
  cases h : lastMatch ps r.filename with
  | some v =>
    simp only [gLast, gLast_filename, h]
  | none =>
    simp only [gLast, gLast_filename, h]

theorem write_pairs_true (ps : List (String × String)) :
    ∀ rows : List Row, write_pairs ⟨rows, true⟩ ps = ⟨rows.map (gLast ps), true⟩ := by
  induction ps with
  | nil =>
    intro rows
    have hid : gLast [] = fun r : Row => r := by
      funext r
      simp [gLast, lastMatch]
    simp [write_pairs, hid]
  | cons p ps ih =>
    intro rows
    have h1 : write_pairs ⟨rows, true⟩ (p :: ps) =
        write_pairs (add_log ⟨rows, true⟩ p.1 p.2) ps := rfl
    rw [h1, add_log_shape]
    have hec : ensure_col (⟨rows, true⟩ : Mapping) = ⟨rows, true⟩ := by
      simp [ensure_col]
    rw [hec, ih, List.map_map]
    have hfun : gLast ps ∘ upd (p.1, p.2) = gLast (p :: ps) := by
      funext r
      exact gLast_upd p ps r
    rw [hfun]

/-- Claim C7: the Mapping Writer is idempotent — applying the same list of
matched (events file, log file) pairs a second time to the manifest it has
already produced yields the identical manifest table (entries are keyed by
scan filename, and each cell ends at the log of the last pair matching its
row), hence a byte-identical serialized table. -/
theorem claim_C7 (m : Mapping) (ps : List (String × String)) :
    write_pairs (write_pairs m ps) ps = write_pairs m ps := by
  cases ps with
  | nil => rfl
  | cons p ps =>
    have hstep : ∀ mm : Mapping, write_pairs mm (p :: ps) =
        ⟨(ensure_col mm).rows.map (gLast (p :: ps)), true⟩ := by
      intro mm
      have h1 : write_pairs mm (p :: ps) = write_pairs (add_log mm p.1 p.2) ps := rfl
      rw [h1, add_log_shape, write_pairs_true, List.map_map]
      have hfun : gLast ps ∘ upd (p.1, p.2) = gLast (p :: ps) := by
        funext r
        exact gLast_upd p ps r
      rw [hfun]
    rw [hstep m, hstep ⟨(ensure_col m).rows.map (gLast (p :: ps)), true⟩]
    have hec : ensure_col (⟨(ensure_col m).rows.map (gLast (p :: ps)), true⟩ : Mapping)
        = ⟨(ensure_col m).rows.map (gLast (p :: ps)), true⟩ := by
      simp [ensure_col]
    rw [hec, List.map_map]
    have hfun2 : gLast (p :: ps) ∘ gLast (p :: ps) = gLast (p :: ps) := by
      funext r
      exact gLast_idem (p :: ps) r
    rw [hfun2]

/-! ### The Bucket Matcher -/

/-- Claim C5: when the candidate retrieval yields exactly one events file and
one log file, `add_mapping` pairs the two directly, independently of the
manifest (hence of any timestamp) and without the Day-Bucket Resolver. -/
theorem claim_C5 (ev lg : Lookup) (subject session task : String) (run : Nat)
    (e l : String)
    (h : get_candidates ev lg subject session task run = Except.ok ([e], [l])) :
    ∀ mapping : List Row,
      add_mapping ev lg mapping subject session task run = Except.ok [(e, l)] := by
  intro mapping
  unfold add_mapping
  rw [h]
  simp [pair_up]

/-- Witness for C5 at a concrete bucket with one candidate per side. -/
theorem claim_C5_witness :
    add_mapping [("01", [("a", [("t", [(0, ["e1"])])])])]
      [("1", [("a", [("t", [(0, ["l1"])])])])]
      [] "a" "01" "t" 0 = Except.ok [("e1", "l1")] :=
  claim_C5 _ _ _ _ _ _ "e1" "l1" (by decide) []

/-! ### The Content Transformer -/

theorem roundHalfEven_low {x : ℚ} {f : ℤ} (hf : ⌊x⌋ = f)
    (h : x - (f : ℚ) < 1/2) : roundHalfEven x = f := by
  unfold roundHalfEven
  rw [hf, if_pos h]

theorem roundHalfEven_high {x : ℚ} {f : ℤ} (hf : ⌊x⌋ = f)
    (h : 1/2 < x - (f : ℚ)) : roundHalfEven x = f + 1 := by
  unfold roundHalfEven
  rw [hf, if_neg (by linarith), if_pos h]

/-- Claim C8: on a schema-family-(2) log with `t_start = [0.001, 1.2345]`,
`t_stop = [0.5, 1.8]`, `condition = [A, B]`, `truth = [true, false]` and no
explicit trial-type column, the Content Transformer outputs durations
`[0.50, 0.57]` (t_stop minus t_start, rounded to two decimals) and trial
types `[A_true, B_false]` (condition and truth joined by an underscore). -/
theorem claim_C8 :
    transform_log_content false
      (fun p => if p = "log.csv" then
        FileRead.table
          { t_start := some [1/1000, 12345/10000], t_stop := some [1/2, 9/5],
            condition := some ["A", "B"], truth := some ["true", "false"] }
        else FileRead.absent) "log.csv" =
    Except.ok (some [⟨0, 1/2, "A_true", none⟩, ⟨123/100, 57/100, "B_false", none⟩]) := by
  have h1 : round2 (1/1000 : ℚ) = 0 := by
    have e1 : roundHalfEven ((100 : ℚ) * (1/1000)) = 0 :=
      roundHalfEven_low (by norm_num) (by norm_num)
    rw [round2, e1]
    norm_num
  have h2 : round2 (12345/10000 : ℚ) = 123/100 := by
    have e1 : roundHalfEven ((100 : ℚ) * (12345/10000)) = 123 :=
      roundHalfEven_low (by norm_num) (by norm_num)
    rw [round2, e1]
    norm_num
  have h3 : round2 ((1/2 : ℚ) - 1/1000) = 1/2 := by
    have e1 : roundHalfEven ((100 : ℚ) * (1/2 - 1/1000)) = 49 + 1 :=
      roundHalfEven_high (by norm_num) (by norm_num)
    rw [round2, e1]
    norm_num
  have h4 : round2 ((9/5 : ℚ) - 12345/10000) = 57/100 := by
    have e1 : roundHalfEven ((100 : ℚ) * (9/5 - 12345/10000)) = 56 + 1 :=
      roundHalfEven_high (by norm_num) (by norm_num)
    rw [round2, e1]
    norm_num
  have hA : strContains "A_true" "pause" = false := by decide
  have hB : strContains "B_false" "pause" = false := by decide
  simp [transform_log_content, col_onset, col_duration, col_trial_type,
    mkRows, h1, h2, h3, h4, hA, hB]
  constructor
  · rw [show ((1000 : ℚ)⁻¹) = 1/1000 by norm_num]
    exact h1
  · rw [show ((2 : ℚ)⁻¹ - (1000 : ℚ)⁻¹) = (1/2 : ℚ) - 1/1000 by norm_num, h3]
    norm_num

/-! ### Missing logs, the retry chain, and transformer errors -/

/-- Claim C1 (amended): when the log index has no entry at all for the
(zero-stripped session, subject, task) address, the `run == 0` path of
`add_mapping` substitutes the placeholder candidate list `[no file found]`;
a bucket with exactly one event file is then paired with the placeholder
(and `transform_log_content` is a no-op on the non-existent placeholder
path, leaving the event file untransformed), while a bucket with more than
one event file raises `ManualChangesNeededError`. -/
theorem claim_C1_amended (ev lg : Lookup) (subject session task : String)
    (eb : Bucket)
    (hev : lookup3 ev session subject task = some eb)
    (hlg : lookup3 lg (strip0 session) subject task = none) :
    get_candidates ev lg subject session task 0 =
      Except.ok (flatten eb, ["no file found"])
    ∧ (∀ e, flatten eb = [e] →
        ∀ mapping, add_mapping ev lg mapping subject session task 0 =
          Except.ok [(e, "no file found")])
    ∧ (1 < (flatten eb).length →
        ∀ mapping, add_mapping ev lg mapping subject session task 0 =
          Except.error (MatchErr.manualChangesNeeded
            (some (flatten eb, ["no file found"]))))
    ∧ (∀ (priming : Bool) (fs : String → FileRead),
        fs "no file found" = FileRead.absent →
        transform_log_content priming fs "no file found" = Except.ok none) := by
  have hgc : get_candidates ev lg subject session task 0 =
      Except.ok (flatten eb, ["no file found"]) := by
    simp [get_candidates, hev, hlg]
  refine ⟨hgc, ?_, ?_, ?_⟩
  · intro e he mapping
    simp [add_mapping, hgc, he, pair_up]
  · intro hlen mapping
    have hne : flatten eb ≠ [] := by
      intro hnil
      rw [hnil] at hlen
      simp at hlen
    simp only [add_mapping, hgc]
    have hcond : 1 < (flatten eb).length ∨ 1 < ([ "no file found" ] : List String).length :=
      Or.inl hlen
    simp only [pair_up, if_pos hcond]
    have hlne : (flatten eb).length ≠ ([ "no file found" ] : List String).length := by
      simp
      omega
    simp only [resolve_times]
    rw [if_neg hlne]
    simp
  · intro priming fs hfs
    simp [transform_log_content, hfs]

/-- Witness for the amended C1: a concrete bucket with one event file and an
empty log index yields the placeholder pair. -/
theorem claim_C1_witness :
    get_candidates [("01", [("a", [("t", [(0, ["e1"])])])])] [] "a" "01" "t" 0 =
      Except.ok (["e1"], ["no file found"])
    ∧ add_mapping [("01", [("a", [("t", [(0, ["e1"])])])])] [] [] "a" "01" "t" 0 =
      Except.ok [("e1", "no file found")] := by
  have h := claim_C1_amended [("01", [("a", [("t", [(0, ["e1"])])])])] []
    "a" "01" "t" [(0, ["e1"])] (by decide) (by decide)
  exact ⟨h.1, h.2.1 "e1" (by decide) []⟩

/-- Counterexample to C1 as stated: with two event files and a log index
with no entry, the run-0 path raises `ManualChangesNeededError` — not a
recoverable empty result — and with one event file a (scan, placeholder)
pair IS produced, so "no (scan, log) pairs are produced" fails as well. -/
theorem claim_C1_counterexample :
    add_mapping [("01", [("a", [("t", [(0, ["e1", "e2"])])])])] []
      [] "a" "01" "t" 0 =
      Except.error (MatchErr.manualChangesNeeded
        (some (["e1", "e2"], ["no file found"])))
    ∧ add_mapping [("01", [("a", [("t", [(0, ["e1"])])])])] []
      [] "a" "01" "t" 0 = Except.ok [("e1", "no file found")] := by
  decide

/-- Claim C2 (amended): when the exact run key is present on the event side
but absent from the log bucket of the normalized session (the bucket itself
existing), the first `add_mapping` attempt raises `LogScanAssignmentError`
and `write_mapping` performs exactly one retry through the sentinel-run
path; the bucket's outcome is exactly the outcome of that single retry —
a Manual-Resolution Error is reported only when the retry itself fails, and
the fallback chain never exceeds one retry. -/
theorem claim_C2_amended (ev lg : Lookup) (mapping : List Row)
    (subject session task : String) (run : Nat) (hr : run ≠ 0)
    (lbt : Bucket)
    (hlg : lookup3 lg (intNorm session) subject task = some lbt)
    (hrun : findA lbt run = none) :
    process_run ev lg mapping subject session task run =
      retryOutcome (add_mapping ev lg mapping subject session task 0) := by
  have hgc : get_candidates ev lg subject session task run =
      Except.error (MatchErr.logScanAssignment none) := by
    simp [get_candidates, hr, hlg, hrun]
  simp [process_run, add_mapping, hgc]

/-- Witness for the amended C2 at a concrete bucket (event run 2 present,
log side has only the sentinel run). -/
theorem claim_C2_witness :
    process_run [("01", [("a", [("t", [(2, ["e2"])])])])]
      [("1", [("a", [("t", [(0, ["l0"])])])])] [] "a" "01" "t" 2 =
    retryOutcome (add_mapping [("01", [("a", [("t", [(2, ["e2"])])])])]
      [("1", [("a", [("t", [(0, ["l0"])])])])] [] "a" "01" "t" 0) :=
  claim_C2_amended _ _ _ "a" "01" "t" 2 (by decide) [(0, ["l0"])] (by decide) (by decide)

/-- Counterexample to C2 as stated: for this bucket (event run 2 present on
the event side, absent on the log side) the single sentinel-run retry
succeeds, so no `ManualChangesNeededError` is raised or reported. -/
theorem claim_C2_counterexample :
    process_run [("01", [("a", [("t", [(2, ["e2"])])])])]
      [("1", [("a", [("t", [(0, ["l0"])])])])] [] "a" "01" "t" 2 =
      RunOutcome.retried [("e2", "l0")] := by
  decide

/-- Claim C9 (amended): `transform_log_content` is a no-op exactly for a
missing log file; a log file that is present but empty/corrupt makes
`pd.read_csv` raise, and the error is not caught. -/
theorem claim_C9_amended (priming : Bool) (fs : String → FileRead) (p : String) :
    (fs p = FileRead.absent → transform_log_content priming fs p = Except.ok none)
    ∧ (fs p = FileRead.unreadable →
        transform_log_content priming fs p = Except.error TErr.readError) := by
  constructor <;> intro h <;> simp [transform_log_content, h]

/-- Witness for the amended C9 at concrete file systems. -/
theorem claim_C9_witness :
    transform_log_content false (fun _ => FileRead.absent) "x" = Except.ok none
    ∧ transform_log_content false (fun _ => FileRead.unreadable) "x" =
        Except.error TErr.readError :=
  ⟨(claim_C9_amended false (fun _ => FileRead.absent) "x").1 rfl,
   (claim_C9_amended false (fun _ => FileRead.unreadable) "x").2 rfl⟩

/-- Counterexample to C9 as stated: a present but unreadable log raises
instead of no-op-ing, and since `extract_onsets` has no handler the error
aborts the loop, so the valid sibling pair in the same manifest is never
transformed. -/
theorem claim_C9_counterexample :
    transform_log_content false
      (fun p => if p = "bad.csv" then FileRead.unreadable
        else FileRead.table { onset := some [1], duration := some [1],
                              trial_type := some ["x"] }) "bad.csv" =
      Except.error TErr.readError
    ∧ extract_onsets false
      (fun p => if p = "bad.csv" then FileRead.unreadable
        else FileRead.table { onset := some [1], duration := some [1],
                              trial_type := some ["x"] })
      ⟨[⟨"s1", "t1", "bad.csv"⟩, ⟨"s2", "t2", "good.csv"⟩], true⟩ =
      Except.error TErr.readError := by
  decide

/-! ### The Day-Bucket Resolver -/

theorem resolveDays_ok_elim (ef lf : List String) (runs : List Row)
    (logs : List String) :
    ∀ (ds : List String) (ps : List (String × String)),
    resolveDays ef lf runs logs ds = Except.ok ps →
    (∀ d ∈ ds, (runs.filter (fun r => decide (get_day r.acq_time = d))).length =
               (logs.filter (fun l => decide (get_day (get_logtime l) = d))).length)
    ∧ ps = (ds.map (fun d =>
        ((runs.filter (fun r => decide (get_day r.acq_time = d))).map
          (fun r => r.filename)).zip
        (logs.filter (fun l => decide (get_day (get_logtime l) = d))))).flatten := by
  intro ds
  induction ds with
  | nil =>
    intro ps h
    simp only [resolveDays] at h
    cases h
    simp
  | cons d ds ih =>
    intro ps h
    simp only [resolveDays] at h
    by_cases hlen : (runs.filter (fun r => decide (get_day r.acq_time = d))).length =
        (logs.filter (fun l => decide (get_day (get_logtime l) = d))).length
    · rw [if_pos hlen] at h
      cases hrec : resolveDays ef lf runs logs ds with
      | ok rest =>
        rw [hrec] at h
        cases h
        rcases ih rest hrec with ⟨h1, h2⟩
        constructor
        · intro d' hd'
          rcases List.mem_cons.mp hd' with he | hm
          · rw [he]; exact hlen
          · exact h1 d' hm
        · rw [List.map_cons, List.flatten_cons, h2]
      | error e =>
        rw [hrec] at h
        cases h
    · rw [if_neg hlen] at h
      cases h

theorem resolveDays_error_of_bad_day (ef lf : List String) (runs : List Row)
    (logs : List String) :
    ∀ ds : List String,
    (∃ d ∈ ds, (runs.filter (fun r => decide (get_day r.acq_time = d))).length ≠
               (logs.filter (fun l => decide (get_day (get_logtime l) = d))).length) →
    resolveDays ef lf runs logs ds =
      Except.error (MatchErr.manualChangesNeeded (some (ef, lf))) := by
  intro ds
  induction ds with
  | nil =>
    rintro ⟨d, hd, _⟩
    exact absurd hd (by simp)
  | cons d ds ih =>
    rintro ⟨d', hd', hne⟩
    simp only [resolveDays]
    by_cases hlen : (runs.filter (fun r => decide (get_day r.acq_time = d))).length =
        (logs.filter (fun l => decide (get_day (get_logtime l) = d))).length
    · rw [if_pos hlen]
      have hd2 : d' ∈ ds := by
        rcases List.mem_cons.mp hd' with he | hm
        · exact absurd (he ▸ hlen) hne
        · exact hm
      rw [ih ⟨d', hd2, hne⟩]
    · rw [if_neg hlen]

theorem resolveDays_ok_payload (ef lf ef2 lf2 : List String) (runs : List Row)
    (logs : List String) :
    ∀ (ds : List String) (ps : List (String × String)),
    resolveDays ef lf runs logs ds = Except.ok ps →
    resolveDays ef2 lf2 runs logs ds = Except.ok ps := by
  intro ds
  induction ds with
  | nil =>
    intro ps h
    exact h
  | cons d ds ih =>
    intro ps h
    simp only [resolveDays] at h ⊢
    by_cases hlen : (runs.filter (fun r => decide (get_day r.acq_time = d))).length =
        (logs.filter (fun l => decide (get_day (get_logtime l) = d))).length
    · rw [if_pos hlen] at h ⊢
      cases hrec : resolveDays ef lf runs logs ds with
      | ok rest =>
        rw [hrec] at h
        rw [ih rest hrec]
        exact h
      | error e =>
        rw [hrec] at h
        cases h
    · rw [if_neg hlen] at h
      cases h

theorem resolve_times_ok_elim (mapping : List Row) (ef lf : List String)
    (run : Nat) (ps : List (String × String))
    (h : resolve_times mapping ef lf run = Except.ok ps) :
    ef.length = lf.length ∧
    resolveDays ef lf (sorted_runs mapping ef) (sorted_logs lf)
      (days_runs mapping ef) = Except.ok ps := by
  unfold resolve_times at h
  by_cases hl : ef.length = lf.length
  · rw [if_pos hl] at h
    exact ⟨hl, h⟩
  · rw [if_neg hl] at h
    by_cases hr : run = 0
    · rw [if_pos hr] at h
      cases h
    · rw [if_neg hr] at h
      cases h

/-- Membership in the sorted day list is membership among the selected
scans' days. -/
theorem mem_days_runs (mapping : List Row) (ef : List String) (d : String) :
    d ∈ days_runs mapping ef ↔
      ∃ r ∈ sorted_runs mapping ef, get_day r.acq_time = d := by
  unfold days_runs
  rw [(sortByKey_perm _ _).mem_iff, List.mem_dedup]
  constructor
  · intro hd
    rcases List.mem_map.mp hd with ⟨r, hr, he⟩
    exact ⟨r, hr, he⟩
  · rintro ⟨r, hr, he⟩
    exact List.mem_map.mpr ⟨r, hr, he⟩

theorem days_runs_nodup (mapping : List Row) (ef : List String) :
    (days_runs mapping ef).Nodup :=
  ((sortByKey_perm _ _).nodup_iff).mpr (List.nodup_dedup _)

theorem filter_false_of {α} (l : List α) (p : α → Bool)
    (h : ∀ x ∈ l, ¬ p x = true) : l.filter p = [] :=
  List.filter_eq_nil_iff.mpr h

theorem mem_day_zip_logday (runs : List Row) (logs : List String) (d : String)
    (p : String × String) (hp : p ∈ day_zip runs logs d) :
    get_day (get_logtime p.2) = d := by
  obtain ⟨p1, p2⟩ := p
  have h2 := (List.of_mem_zip hp).2
  exact of_decide_eq_true (List.mem_filter.mp h2).2

theorem day_zip_flatten_filter (runs : List Row) (logs : List String) :
    ∀ (ds : List String) (d : String), ds.Nodup →
    ((ds.map (day_zip runs logs)).flatten).filter
        (fun p => decide (get_day (get_logtime p.2) = d)) =
      if d ∈ ds then day_zip runs logs d else [] := by
  intro ds
  induction ds with
  | nil =>
    intro d _
    simp
  | cons d' ds ih =>
    intro d hnd
    rcases List.nodup_cons.mp hnd with ⟨hd', hnds⟩
    rw [List.map_cons, List.flatten_cons, List.filter_append, ih d hnds]
    by_cases he : d' = d
    · subst he
      rw [List.filter_eq_self.mpr (fun p hp => by
        simp [mem_day_zip_logday runs logs d' p hp])]
      rw [if_neg hd', if_pos (List.mem_cons_self d' ds)]
      simp
    · rw [filter_false_of _ _ (fun p hp => by
        simp [mem_day_zip_logday runs logs d' p hp, he])]
      have hmem : (d ∈ d' :: ds) ↔ (d ∈ ds) := by
        simp [List.mem_cons]
        intro hdd
        exact absurd hdd.symm he
      by_cases hd : d ∈ ds
      · rw [if_pos hd, if_pos (hmem.mpr hd)]
        simp
      · rw [if_neg hd, if_neg (fun hh => hd (hmem.mp hh))]
        simp

theorem pairwise_zip_right {α β : Type} {R : β → β → Prop} :
    ∀ (a : List α) (b : List β), b.Pairwise R →
    (a.zip b).Pairwise (fun p q => R p.2 q.2) := by
  intro a
  induction a with
  | nil =>
    intro b _
    simp
  | cons x a ih =>
    intro b hb
    cases b with
    | nil => simp
    | cons y b =>
      rcases List.pairwise_cons.mp hb with ⟨hy, hb2⟩
      rw [List.zip_cons_cons]
      refine List.pairwise_cons.mpr ⟨?_, ih b hb2⟩
      intro q hq
      obtain ⟨q1, q2⟩ := q
      exact hy q2 (List.of_mem_zip hq).2

/-- Claim C4: on every successful resolution, no returned (scan, log) pair
crosses a calendar day (the scan's manifest acquisition day equals the log's
parsed creation day); for every day the returned sub-list for that day is
exactly the rank pairing of the day's scans and logs taken from the
timestamp-sorted lists; both day-buckets are sorted ascending by timestamp,
and the returned pairing is non-decreasing in timestamp within each day. -/
theorem claim_C4 (mapping : List Row) (ef lf : List String) (run : Nat)
    (ps : List (String × String))
    (h : resolve_times mapping ef lf run = Except.ok ps) :
    (∀ p ∈ ps, ∃ r, r ∈ mapping ∧ r.filename = p.1 ∧
        get_day r.acq_time = get_day (get_logtime p.2))
    ∧ (∀ d, ps.filter (fun p => decide (get_day (get_logtime p.2) = d)) =
        day_zip (sorted_runs mapping ef) (sorted_logs lf) d)
    ∧ (∀ d, ((sorted_runs mapping ef).filter
          (fun r => decide (get_day r.acq_time = d))).Pairwise
        (fun a b => strLe a.acq_time b.acq_time = true))
    ∧ (∀ d, ((sorted_logs lf).filter
          (fun l => decide (get_day (get_logtime l) = d))).Pairwise
        (fun a b => strLe (get_logtime a) (get_logtime b) = true))
    ∧ (∀ d, (ps.filter (fun p => decide (get_day (get_logtime p.2) = d))).Pairwise
        (fun p q => strLe (get_logtime p.2) (get_logtime q.2) = true)) := by
  obtain ⟨hlen, hrd⟩ := resolve_times_ok_elim mapping ef lf run ps h
  obtain ⟨hdays, hform⟩ := resolveDays_ok_elim ef lf (sorted_runs mapping ef)
    (sorted_logs lf) (days_runs mapping ef) ps hrd
  have hform2 : ps = ((days_runs mapping ef).map
      (day_zip (sorted_runs mapping ef) (sorted_logs lf))).flatten := hform
  have hfilter : ∀ d, ps.filter (fun p => decide (get_day (get_logtime p.2) = d)) =
      day_zip (sorted_runs mapping ef) (sorted_logs lf) d := by
    intro d
    rw [hform2, day_zip_flatten_filter _ _ _ d (days_runs_nodup mapping ef)]
    by_cases hd : d ∈ days_runs mapping ef
    · rw [if_pos hd]
    · rw [if_neg hd]
      have hempty : (sorted_runs mapping ef).filter
          (fun r => decide (get_day r.acq_time = d)) = [] := by
        apply filter_false_of
        intro r hr
        simp only [decide_eq_true_eq]
        intro hday
        exact hd ((mem_days_runs mapping ef d).mpr ⟨r, hr, hday⟩)
      unfold day_zip
      rw [hempty]
      simp
  have hsortedR : ∀ d, ((sorted_runs mapping ef).filter
      (fun r => decide (get_day r.acq_time = d))).Pairwise
      (fun a b => strLe a.acq_time b.acq_time = true) := by
    intro d
    exact (sortByKey_pairwise (fun r => r.acq_time) (sel_runs mapping ef)).filter _
  have hsortedL : ∀ d, ((sorted_logs lf).filter
      (fun l => decide (get_day (get_logtime l) = d))).Pairwise
      (fun a b => strLe (get_logtime a) (get_logtime b) = true) := by
    intro d
    exact (sortByKey_pairwise get_logtime lf).filter _
  refine ⟨?_, hfilter, hsortedR, hsortedL, ?_⟩
  · intro p hp
    rw [hform2] at hp
    rcases List.mem_flatten.mp hp with ⟨seg, hseg, hpseg⟩
    rcases List.mem_map.mp hseg with ⟨d, _, hdz⟩
    subst hdz
    obtain ⟨p1, p2⟩ := p
    have h1 := (List.of_mem_zip hpseg).1
    have h2 := (List.of_mem_zip hpseg).2
    rcases List.mem_map.mp h1 with ⟨r, hrf, hrn⟩
    have hrmem := (List.mem_filter.mp hrf).1
    have hrday : get_day r.acq_time = d :=
      of_decide_eq_true (List.mem_filter.mp hrf).2
    have hlday : get_day (get_logtime p2) = d :=
      of_decide_eq_true (List.mem_filter.mp h2).2
    have hrsel : r ∈ sel_runs mapping ef := by
      unfold sorted_runs at hrmem
      exact (sortByKey_perm _ _).mem_iff.mp hrmem
    exact ⟨r, (List.mem_filter.mp hrsel).1, hrn, by rw [hrday, hlday]⟩
  · intro d
    rw [hfilter d]
    exact pairwise_zip_right _ _ (hsortedL d)

/-- Witness for C4 at the specification scenario (two scans and two logs on
the calendar day 2022-04-30, paired by rank). -/
theorem claim_C4_witness :
    List.filter (fun p => decide (get_day (get_logtime p.2) = "2022-04-30"))
      [("func/sub-01_ses-02_task-rest_run-1_bold.nii.gz",
        "sub-01_ses-2_rest_2022_04_30_1017.csv"),
       ("func/sub-01_ses-02_task-rest_run-2_bold.nii.gz",
        "sub-01_ses-2_rest_2022_04_30_1040.csv")] =
    day_zip
      (sorted_runs
        [⟨"func/sub-01_ses-02_task-rest_run-2_bold.nii.gz", "2022-04-30T10:40:02.0", ""⟩,
         ⟨"func/sub-01_ses-02_task-rest_run-1_bold.nii.gz", "2022-04-30T10:17:15.0", ""⟩]
        ["sub-01_ses-02_task-rest_run-1_events.tsv",
         "sub-01_ses-02_task-rest_run-2_events.tsv"])
      (sorted_logs ["sub-01_ses-2_rest_2022_04_30_1040.csv",
                    "sub-01_ses-2_rest_2022_04_30_1017.csv"])
      "2022-04-30" :=
  (claim_C4
    [⟨"func/sub-01_ses-02_task-rest_run-2_bold.nii.gz", "2022-04-30T10:40:02.0", ""⟩,
     ⟨"func/sub-01_ses-02_task-rest_run-1_bold.nii.gz", "2022-04-30T10:17:15.0", ""⟩]
    ["sub-01_ses-02_task-rest_run-1_events.tsv",
     "sub-01_ses-02_task-rest_run-2_events.tsv"]
    ["sub-01_ses-2_rest_2022_04_30_1040.csv",
     "sub-01_ses-2_rest_2022_04_30_1017.csv"] 0
    [("func/sub-01_ses-02_task-rest_run-1_bold.nii.gz",
      "sub-01_ses-2_rest_2022_04_30_1017.csv"),
     ("func/sub-01_ses-02_task-rest_run-2_bold.nii.gz",
      "sub-01_ses-2_rest_2022_04_30_1040.csv")]
    (by decide)).2.1 "2022-04-30"

/-- Every pair of a successful resolution comes from a selected manifest row
and a candidate log of the same calendar day. -/
theorem resolve_times_pair_dissect (mapping : List Row) (ef lf : List String)
    (run : Nat) (ps : List (String × String))
    (h : resolve_times mapping ef lf run = Except.ok ps)
    (p : String × String) (hp : p ∈ ps) :
    ∃ r ∈ sel_runs mapping ef, r.filename = p.1 ∧
      get_day r.acq_time = get_day (get_logtime p.2) ∧ p.2 ∈ lf := by
  obtain ⟨hlen, hrd⟩ := resolve_times_ok_elim mapping ef lf run ps h
  obtain ⟨hdays, hform⟩ := resolveDays_ok_elim ef lf (sorted_runs mapping ef)
    (sorted_logs lf) (days_runs mapping ef) ps hrd
  rw [hform] at hp
  rcases List.mem_flatten.mp hp with ⟨seg, hseg, hpseg⟩
  rcases List.mem_map.mp hseg with ⟨d, _, hdz⟩
  have hpz : p ∈ day_zip (sorted_runs mapping ef) (sorted_logs lf) d := by
    rw [← hdz] at hpseg
    exact hpseg
  obtain ⟨p1, p2⟩ := p
  have h1 := (List.of_mem_zip hpz).1
  have h2 := (List.of_mem_zip hpz).2
  rcases List.mem_map.mp h1 with ⟨r, hrf, hrn⟩
  have hrmem := (List.mem_filter.mp hrf).1
  have hrday : get_day r.acq_time = d := of_decide_eq_true (List.mem_filter.mp hrf).2
  have hlday : get_day (get_logtime p2) = d :=
    of_decide_eq_true (List.mem_filter.mp h2).2
  have hrsel : r ∈ sel_runs mapping ef := by
    unfold sorted_runs at hrmem
    exact (sortByKey_perm _ _).mem_iff.mp hrmem
  have hlmem : p2 ∈ lf := by
    have := (List.mem_filter.mp h2).1
    unfold sorted_logs at this
    exact (sortByKey_perm _ _).mem_iff.mp this
  exact ⟨r, hrsel, hrn, by rw [hrday, hlday], hlmem⟩

/-- Claim C10: `resolve_times` pairs only event files whose derived scan name
is a row of the current manifest, and only logs whose calendar day carries at
least one such manifest-listed scan; an event file with no manifest row, and
a log on a day with no selected scan, simply appear in no returned pair —
their exclusion raises no error (the witness exhibits a successful run with
both kinds of excluded candidate). -/
theorem claim_C10 (mapping : List Row) (ef lf : List String) (run : Nat)
    (ps : List (String × String))
    (h : resolve_times mapping ef lf run = Except.ok ps) :
    (∀ p ∈ ps, p.1 ∈ mapping.map (fun r => r.filename) ∧ p.1 ∈ s_files_of ef)
    ∧ (∀ p ∈ ps, ∃ r ∈ sel_runs mapping ef,
        get_day r.acq_time = get_day (get_logtime p.2))
    ∧ (∀ e ∈ ef, get_scanname e ∉ mapping.map (fun r => r.filename) →
        ∀ p ∈ ps, p.1 ≠ get_scanname e)
    ∧ (∀ l ∈ lf,
        (∀ r ∈ sel_runs mapping ef, get_day r.acq_time ≠ get_day (get_logtime l)) →
        ∀ p ∈ ps, p.2 ≠ l) := by
  have hmain : ∀ p ∈ ps, p.1 ∈ mapping.map (fun r => r.filename) ∧ p.1 ∈ s_files_of ef := by
    intro p hp
    obtain ⟨r, hrsel, hrn, _, _⟩ := resolve_times_pair_dissect mapping ef lf run ps h p hp
    have hrfil := List.mem_filter.mp hrsel
    constructor
    · exact hrn ▸ List.mem_map.mpr ⟨r, hrfil.1, rfl⟩
    · exact hrn ▸ of_decide_eq_true hrfil.2
  refine ⟨hmain, ?_, ?_, ?_⟩
  · intro p hp
    obtain ⟨r, hrsel, _, hday, _⟩ := resolve_times_pair_dissect mapping ef lf run ps h p hp
    exact ⟨r, hrsel, hday⟩
  · intro e _ hnot p hp heq
    exact hnot (heq ▸ (hmain p hp).1)
  · intro l _ hno p hp heq
    obtain ⟨r, hrsel, _, hday, _⟩ := resolve_times_pair_dissect mapping ef lf run ps h p hp
    exact hno r hrsel (heq ▸ hday)

/-- Witness for C10: a successful resolution in which one event file has no
manifest row and one log falls on a day with no selected scan; both are
silently excluded from the single returned pair. -/
theorem claim_C10_witness :
    resolve_times
      [⟨"func/sub-01_ses-01_task-t_run-1_bold.nii.gz", "2022-04-30T10:00:00.0", ""⟩]
      ["sub-01_ses-01_task-t_run-1_events.tsv", "sub-01_ses-01_task-t_run-2_events.tsv"]
      ["sub-01_ses-1_t_2022_04_30_1017.csv", "sub-01_ses-1_t_2022_05_01_0900.csv"] 0 =
      Except.ok [("func/sub-01_ses-01_task-t_run-1_bold.nii.gz",
                  "sub-01_ses-1_t_2022_04_30_1017.csv")]
    ∧ ("func/sub-01_ses-01_task-t_run-1_bold.nii.gz" ∈
        List.map (fun r => r.filename)
          [(⟨"func/sub-01_ses-01_task-t_run-1_bold.nii.gz", "2022-04-30T10:00:00.0", ""⟩ : Row)]
       ∧ "func/sub-01_ses-01_task-t_run-1_bold.nii.gz" ∈
        s_files_of ["sub-01_ses-01_task-t_run-1_events.tsv",
                    "sub-01_ses-01_task-t_run-2_events.tsv"]) :=
  ⟨by decide,
   (claim_C10
      [⟨"func/sub-01_ses-01_task-t_run-1_bold.nii.gz", "2022-04-30T10:00:00.0", ""⟩]
      ["sub-01_ses-01_task-t_run-1_events.tsv", "sub-01_ses-01_task-t_run-2_events.tsv"]
      ["sub-01_ses-1_t_2022_04_30_1017.csv", "sub-01_ses-1_t_2022_05_01_0900.csv"] 0
      [("func/sub-01_ses-01_task-t_run-1_bold.nii.gz",
        "sub-01_ses-1_t_2022_04_30_1017.csv")]
      (by decide)).1
     ("func/sub-01_ses-01_task-t_run-1_bold.nii.gz",
      "sub-01_ses-1_t_2022_04_30_1017.csv") (by decide)⟩

/-! ### Counting lemmas for the per-day cardinality argument -/

theorem sum_map_add (ds : List String) (f g : String → Nat) :
    (ds.map (fun d => f d + g d)).sum = (ds.map f).sum + (ds.map g).sum := by
  induction ds with
  | nil => simp
  | cons d ds ih =>
    simp [ih]
    omega

theorem sum_indicator_zero (ds : List String) (v : String) (hv : v ∉ ds) :
    (ds.map (fun d => if v = d then 1 else 0)).sum = 0 := by
  induction ds with
  | nil => simp
  | cons d ds ih =>
    have h1 : v ≠ d := fun he => hv (he ▸ List.mem_cons_self d ds)
    have h2 : v ∉ ds := fun hm => hv (List.mem_cons_of_mem d hm)
    simp [h1, ih h2]

theorem sum_indicator_one (ds : List String) (v : String) (hnd : ds.Nodup)
    (hv : v ∈ ds) : (ds.map (fun d => if v = d then 1 else 0)).sum = 1 := by
  induction ds with
  | nil => exact absurd hv (by simp)
  | cons d ds ih =>
    rcases List.nodup_cons.mp hnd with ⟨hd, hnds⟩
    rcases List.mem_cons.mp hv with he | hm
    · subst he
      simp [sum_indicator_zero ds v hd]
    · have hne : v ≠ d := fun he => hd (he ▸ hm)
      simp [hne, ih hnds hm]

theorem sum_filter_partition {α : Type} (key : α → String) (ds : List String)
    (hnd : ds.Nodup) :
    ∀ xs : List α,
    (ds.map (fun d => (xs.filter (fun x => decide (key x = d))).length)).sum =
    (xs.filter (fun x => decide (key x ∈ ds))).length := by
  intro xs
  induction xs with
  | nil =>
    have hz : ∀ es : List String, (es.map (fun _ => 0)).sum = 0 := by
      intro es
      induction es with
      | nil => rfl
      | cons e es ih => simp [ih]
    simp [hz]
  | cons x xs ih =>
    have hstep : (fun d => (List.filter (fun y => decide (key y = d)) (x :: xs)).length)
        = fun d => (if key x = d then 1 else 0) +
            (List.filter (fun y => decide (key y = d)) xs).length := by
      funext d
      by_cases hx : key x = d
      · simp [List.filter_cons, hx]
        omega
      · simp [List.filter_cons, hx]
    rw [hstep, sum_map_add, ih]
    by_cases hm : key x ∈ ds
    · rw [sum_indicator_one ds (key x) hnd hm]
      simp [List.filter_cons, hm]
      omega
    · rw [sum_indicator_zero ds (key x) hm]
      simp [List.filter_cons, hm]

theorem sum_filter_eq_length {α : Type} (key : α → String) (ds : List String)
    (hnd : ds.Nodup) (xs : List α) (hcov : ∀ x ∈ xs, key x ∈ ds) :
    (ds.map (fun d => (xs.filter (fun x => decide (key x = d))).length)).sum =
    xs.length := by
  rw [sum_filter_partition key ds hnd xs]
  rw [List.filter_eq_self.mpr (fun x hx => by simp [hcov x hx])]

theorem length_filter_lt {α : Type} (p : α → Bool) :
    ∀ (l : List α) (x : α), x ∈ l → p x = false → (l.filter p).length < l.length := by
  intro l
  induction l with
  | nil =>
    intro x hx
    exact absurd hx (by simp)
  | cons y l ih =>
    intro x hx hpx
    rcases List.mem_cons.mp hx with he | hm
    · subst he
      rw [List.filter_cons, if_neg (by simp [hpx])]
      simp only [List.length_cons]
      exact Nat.lt_succ_of_le (List.length_filter_le p l)
    · by_cases hy : p y
      · rw [List.filter_cons, if_pos (by simp [hy])]
        simpa using ih x hm hpx
      · rw [List.filter_cons, if_neg (by simp [hy])]
        simp only [List.length_cons]
        exact Nat.lt_succ_of_lt (ih x hm hpx)

theorem sum_filter_lt_length {α : Type} (key : α → String) (ds : List String)
    (hnd : ds.Nodup) (xs : List α) (x : α) (hx : x ∈ xs) (hout : key x ∉ ds) :
    (ds.map (fun d => (xs.filter (fun y => decide (key y = d))).length)).sum <
    xs.length := by
  rw [sum_filter_partition key ds hnd xs]
  exact length_filter_lt _ xs x hx (by simp [hout])

/-- The number of selected manifest rows equals the number of event files
when manifest filenames are distinct, scan names are distinct and every scan
name has a manifest row. -/
theorem sel_runs_length (mapping : List Row) (ef : List String)
    (hndM : (mapping.map (fun r => r.filename)).Nodup)
    (hndS : (s_files_of ef).Nodup)
    (hsub : ∀ s ∈ s_files_of ef, s ∈ mapping.map (fun r => r.filename)) :
    (sel_runs mapping ef).length = ef.length := by
  have h1 : ∀ ms : List Row,
      (ms.filter (fun r => decide (r.filename ∈ s_files_of ef))).length =
      ((ms.map (fun r => r.filename)).filter
        (fun s => decide (s ∈ s_files_of ef))).length := by
    intro ms
    induction ms with
    | nil => simp
    | cons r ms ih =>
      by_cases hm : r.filename ∈ s_files_of ef
      · simp [List.filter_cons, hm, ih]
      · simp [List.filter_cons, hm, ih]
  have h2 : (sel_runs mapping ef).length =
      ((mapping.map (fun r => r.filename)).filter
        (fun s => decide (s ∈ s_files_of ef))).length := h1 mapping
  have hperm : ((mapping.map (fun r => r.filename)).filter
      (fun s => decide (s ∈ s_files_of ef))) ~ s_files_of ef := by
    apply List.perm_of_nodup_nodup_toFinset_eq
    · exact hndM.filter _
    · exact hndS
    · ext a
      simp only [List.mem_toFinset, List.mem_filter, decide_eq_true_eq]
      constructor
      · rintro ⟨_, ha⟩
        exact ha
      · intro ha
        exact ⟨hsub a ha, ha⟩
  rw [h2, hperm.length_eq]
  simp [s_files_of]

/-- Claim C3 (amended): with candidate lists of unequal total length,
`resolve_times` raises `ManualChangesNeededError` when `run == 0` and the
recoverable `LogScanAssignmentError` when `run != 0` (both carrying the full
candidate lists); with equal total lengths (and a well-formed manifest:
distinct filenames covering the distinct derived scan names), any calendar
day — present on either side — whose two day-buckets have unequal
cardinality makes `resolve_times` raise `ManualChangesNeededError` carrying
the full candidate lists of both sides; no partial pairing is returned in
either case. -/
theorem claim_C3_amended (mapping : List Row) (ef lf : List String) (run : Nat) :
    (ef.length ≠ lf.length →
      resolve_times mapping ef lf run =
        (if run = 0 then Except.error (MatchErr.manualChangesNeeded (some (ef, lf)))
         else Except.error (MatchErr.logScanAssignment (some (ef, lf)))))
    ∧ (ef.length = lf.length →
       (mapping.map (fun r => r.filename)).Nodup →
       (s_files_of ef).Nodup →
       (∀ s ∈ s_files_of ef, s ∈ mapping.map (fun r => r.filename)) →
       ∀ d : String,
       ((sel_runs mapping ef).filter (fun r => decide (get_day r.acq_time = d))).length ≠
         (lf.filter (fun l => decide (get_day (get_logtime l) = d))).length →
       resolve_times mapping ef lf run =
         Except.error (MatchErr.manualChangesNeeded (some (ef, lf)))) := by
  constructor
  · intro hne
    unfold resolve_times
    rw [if_neg hne]
  · intro hlen hndM hndS hsub d hd
    have hpermR : ∀ d' : String,
        ((sorted_runs mapping ef).filter
          (fun r => decide (get_day r.acq_time = d'))).length =
        ((sel_runs mapping ef).filter
          (fun r => decide (get_day r.acq_time = d'))).length := by
      intro d'
      exact ((sortByKey_perm (fun r => r.acq_time) (sel_runs mapping ef)).filter _).length_eq
    have hpermL : ∀ d' : String,
        ((sorted_logs lf).filter
          (fun l => decide (get_day (get_logtime l) = d'))).length =
        (lf.filter (fun l => decide (get_day (get_logtime l) = d'))).length := by
      intro d'
      exact ((sortByKey_perm get_logtime lf).filter _).length_eq
    have hd2 : ((sorted_runs mapping ef).filter
          (fun r => decide (get_day r.acq_time = d))).length ≠
        ((sorted_logs lf).filter
          (fun l => decide (get_day (get_logtime l) = d))).length := by
      rw [hpermR d, hpermL d]
      exact hd
    have hbad : ∃ d' ∈ days_runs mapping ef,
        ((sorted_runs mapping ef).filter
          (fun r => decide (get_day r.acq_time = d'))).length ≠
        ((sorted_logs lf).filter
          (fun l => decide (get_day (get_logtime l) = d'))).length := by
      by_cases hdD : d ∈ days_runs mapping ef
      · exact ⟨d, hdD, hd2⟩
      · by_contra hno
        push_neg at hno
        have hRlen : (sorted_runs mapping ef).length = ef.length := by
          unfold sorted_runs
          rw [(sortByKey_perm (fun r => r.acq_time) (sel_runs mapping ef)).length_eq]
          exact sel_runs_length mapping ef hndM hndS hsub
        have hLlen : (sorted_logs lf).length = lf.length :=
          (sortByKey_perm get_logtime lf).length_eq
        have hcovR : ∀ r ∈ sorted_runs mapping ef,
            get_day r.acq_time ∈ days_runs mapping ef :=
          fun r hr => (mem_days_runs mapping ef _).mpr ⟨r, hr, rfl⟩
        have hsumR : ((days_runs mapping ef).map
            (fun d' => ((sorted_runs mapping ef).filter
              (fun r => decide (get_day r.acq_time = d'))).length)).sum =
            (sorted_runs mapping ef).length :=
          sum_filter_eq_length (fun r : Row => get_day r.acq_time) _
            (days_runs_nodup mapping ef) _ hcovR
        have hRd0 : ((sorted_runs mapping ef).filter
            (fun r => decide (get_day r.acq_time = d))).length = 0 := by
          rw [filter_false_of _ _ (fun r hr => by
            simp only [decide_eq_true_eq]
            intro hday
            exact hdD ((mem_days_runs mapping ef d).mpr ⟨r, hr, hday⟩))]
          rfl
        have hLd : ((sorted_logs lf).filter
            (fun l => decide (get_day (get_logtime l) = d))).length ≠ 0 := by
          rw [← hRd0]
          exact fun he => hd2 he.symm
        obtain ⟨l0, hl0⟩ : ∃ l0, l0 ∈ (sorted_logs lf).filter
            (fun l => decide (get_day (get_logtime l) = d)) :=
          List.exists_mem_of_length_pos (Nat.pos_of_ne_zero hLd)
        have hl0mem := (List.mem_filter.mp hl0).1
        have hl0day : get_day (get_logtime l0) = d :=
          of_decide_eq_true (List.mem_filter.mp hl0).2
        have hl0out : get_day (get_logtime l0) ∉ days_runs mapping ef := by
          rw [hl0day]
          exact hdD
        have hsumL : ((days_runs mapping ef).map
            (fun d' => ((sorted_logs lf).filter
              (fun l => decide (get_day (get_logtime l) = d'))).length)).sum <
            (sorted_logs lf).length :=
          sum_filter_lt_length (fun l : String => get_day (get_logtime l)) _
            (days_runs_nodup mapping ef) _ l0 hl0mem hl0out
        have hcong : ((days_runs mapping ef).map
            (fun d' => ((sorted_logs lf).filter
              (fun l => decide (get_day (get_logtime l) = d'))).length)).sum =
            ((days_runs mapping ef).map
            (fun d' => ((sorted_runs mapping ef).filter
              (fun r => decide (get_day r.acq_time = d'))).length)).sum := by
          rw [List.map_congr_left (fun d' hd' => (hno d' hd').symm)]
        rw [hcong, hsumR, hRlen] at hsumL
        rw [hLlen] at hsumL
        omega
    unfold resolve_times
    rw [if_pos hlen]
    exact resolveDays_error_of_bad_day ef lf _ _ _ hbad

/-- Witness for the amended C3: both branches at concrete inputs (unequal
totals with run 2; equal totals but 2 scans versus 1 log on 2022-04-30). -/
theorem claim_C3_witness :
    resolve_times [] ["e1", "e2"] ["l1"] 2 =
      Except.error (MatchErr.logScanAssignment (some (["e1", "e2"], ["l1"])))
    ∧ resolve_times
      [⟨"func/sub-01_ses-01_task-t_run-1_bold.nii.gz", "2022-04-30T10:00:00.0", ""⟩,
       ⟨"func/sub-01_ses-01_task-t_run-2_bold.nii.gz", "2022-04-30T11:00:00.0", ""⟩]
      ["sub-01_ses-01_task-t_run-1_events.tsv", "sub-01_ses-01_task-t_run-2_events.tsv"]
      ["sub-01_ses-1_t_2022_04_30_1017.csv", "sub-01_ses-1_t_2022_05_01_0900.csv"] 0 =
      Except.error (MatchErr.manualChangesNeeded
        (some (["sub-01_ses-01_task-t_run-1_events.tsv",
                "sub-01_ses-01_task-t_run-2_events.tsv"],
               ["sub-01_ses-1_t_2022_04_30_1017.csv",
                "sub-01_ses-1_t_2022_05_01_0900.csv"]))) :=
  ⟨by
    have h := (claim_C3_amended [] ["e1", "e2"] ["l1"] 2).1 (by decide)
    rw [h]
    rfl,
   (claim_C3_amended
      [⟨"func/sub-01_ses-01_task-t_run-1_bold.nii.gz", "2022-04-30T10:00:00.0", ""⟩,
       ⟨"func/sub-01_ses-01_task-t_run-2_bold.nii.gz", "2022-04-30T11:00:00.0", ""⟩]
      ["sub-01_ses-01_task-t_run-1_events.tsv", "sub-01_ses-01_task-t_run-2_events.tsv"]
      ["sub-01_ses-1_t_2022_04_30_1017.csv", "sub-01_ses-1_t_2022_05_01_0900.csv"] 0).2
     (by decide) (by decide) (by decide) (by decide) "2022-04-30" (by decide)⟩

/-- Counterexample to C3 as stated: a day (2022-04-30, present on the log
side) whose day-buckets have cardinality 1 versus 0, yet with `run = 2` and
unequal totals `resolve_times` raises the recoverable
`LogScanAssignmentError`, not a `ManualChangesNeededError`. -/
theorem claim_C3_counterexample :
    resolve_times [] ["e1", "e2"] ["sub-01_ses-1_t_2022_04_30_1017.csv"] 2 =
      Except.error (MatchErr.logScanAssignment
        (some (["e1", "e2"], ["sub-01_ses-1_t_2022_04_30_1017.csv"])))
    ∧ (["sub-01_ses-1_t_2022_04_30_1017.csv"].filter
        (fun l => decide (get_day (get_logtime l) = "2022-04-30"))).length = 1
    ∧ (List.filter (fun r => decide (get_day r.acq_time = "2022-04-30"))
        (sel_runs [] ["e1", "e2"])).length = 0 := by
  decide

/-! ### Determinism and order independence of the resolver -/

/-- Claim C6 (amended): a successful pairing is unchanged under reordering
the event-file list, and under reordering the log-file list provided the
parsed log timestamps are pairwise distinct (with tied log timestamps —
possible since the parsed time has minute resolution — the pairing can
depend on the discovery order of the logs, see the counterexample). -/
theorem claim_C6_amended (mapping : List Row) (ef ef2 lf lf2 : List String)
    (run : Nat) (ps : List (String × String))
    (hef : ef.Perm ef2) (hlf : lf.Perm lf2)
    (hkeys : (lf.map get_logtime).Nodup)
    (h : resolve_times mapping ef lf run = Except.ok ps) :
    resolve_times mapping ef2 lf2 run = Except.ok ps := by
  obtain ⟨hlen, hrd⟩ := resolve_times_ok_elim mapping ef lf run ps h
  have hlen2 : ef2.length = lf2.length := by
    rw [← hef.length_eq, ← hlf.length_eq]
    exact hlen
  have hsel : sel_runs mapping ef2 = sel_runs mapping ef := by
    unfold sel_runs
    apply List.filter_congr
    intro r _
    exact decide_eq_decide.mpr ((hef.map get_scanname).mem_iff).symm
  have hsorted : sorted_runs mapping ef2 = sorted_runs mapping ef := by
    unfold sorted_runs
    rw [hsel]
  have hdaysr : days_runs mapping ef2 = days_runs mapping ef := by
    unfold days_runs
    rw [hsorted]
  have hlogs : sorted_logs lf2 = sorted_logs lf := by
    apply sorted_perm_nodup_key_eq get_logtime
    · exact sortByKey_pairwise get_logtime lf2
    · exact sortByKey_pairwise get_logtime lf
    · calc sortByKey get_logtime lf2 ~ lf2 := sortByKey_perm get_logtime lf2
        _ ~ lf := hlf.symm
        _ ~ sortByKey get_logtime lf := (sortByKey_perm get_logtime lf).symm
    · have hp : (sortByKey get_logtime lf2).map get_logtime ~ lf.map get_logtime :=
        ((sortByKey_perm get_logtime lf2).map get_logtime).trans
          ((hlf.symm).map get_logtime)
      exact hp.nodup_iff.mpr hkeys
  unfold resolve_times
  rw [if_pos hlen2, hsorted, hdaysr, hlogs]
  exact resolveDays_ok_payload ef lf ef2 lf2 _ _ _ ps hrd

/-- Witness for the amended C6: the scenario pairing is unchanged when both
candidate lists are given in the opposite order (log timestamps distinct). -/
theorem claim_C6_witness :
    resolve_times
      [⟨"func/sub-01_ses-02_task-rest_run-2_bold.nii.gz", "2022-04-30T10:40:02.0", ""⟩,
       ⟨"func/sub-01_ses-02_task-rest_run-1_bold.nii.gz", "2022-04-30T10:17:15.0", ""⟩]
      ["sub-01_ses-02_task-rest_run-2_events.tsv", "sub-01_ses-02_task-rest_run-1_events.tsv"]
      ["sub-01_ses-2_rest_2022_04_30_1017.csv", "sub-01_ses-2_rest_2022_04_30_1040.csv"] 0 =
      Except.ok [("func/sub-01_ses-02_task-rest_run-1_bold.nii.gz",
                  "sub-01_ses-2_rest_2022_04_30_1017.csv"),
                 ("func/sub-01_ses-02_task-rest_run-2_bold.nii.gz",
                  "sub-01_ses-2_rest_2022_04_30_1040.csv")] :=
  claim_C6_amended
    [⟨"func/sub-01_ses-02_task-rest_run-2_bold.nii.gz", "2022-04-30T10:40:02.0", ""⟩,
     ⟨"func/sub-01_ses-02_task-rest_run-1_bold.nii.gz", "2022-04-30T10:17:15.0", ""⟩]
    ["sub-01_ses-02_task-rest_run-1_events.tsv", "sub-01_ses-02_task-rest_run-2_events.tsv"]
    ["sub-01_ses-02_task-rest_run-2_events.tsv", "sub-01_ses-02_task-rest_run-1_events.tsv"]
    ["sub-01_ses-2_rest_2022_04_30_1040.csv", "sub-01_ses-2_rest_2022_04_30_1017.csv"]
    ["sub-01_ses-2_rest_2022_04_30_1017.csv", "sub-01_ses-2_rest_2022_04_30_1040.csv"]
    0 _ (by decide) (by decide) (by decide) (by decide)

/-- Counterexample to C6 as stated: two logs that parse to the same creation
minute (`a_x_...1017` and `b_x_...1017`); presenting the same multiset of
log files in the two possible orders yields two different successful
pairings, so the pairing is not independent of discovery order. -/
theorem claim_C6_counterexample :
    List.Perm ["a_x_2022_04_30_1017.csv", "b_x_2022_04_30_1017.csv"]
      ["b_x_2022_04_30_1017.csv", "a_x_2022_04_30_1017.csv"]
    ∧ resolve_times
      [⟨"func/sub-01_ses-01_task-t_run-1_bold.nii.gz", "2022-04-30T10:00:00.0", ""⟩,
       ⟨"func/sub-01_ses-01_task-t_run-2_bold.nii.gz", "2022-04-30T11:00:00.0", ""⟩]
      ["sub-01_ses-01_task-t_run-1_events.tsv", "sub-01_ses-01_task-t_run-2_events.tsv"]
      ["a_x_2022_04_30_1017.csv", "b_x_2022_04_30_1017.csv"] 0 =
      Except.ok [("func/sub-01_ses-01_task-t_run-1_bold.nii.gz", "a_x_2022_04_30_1017.csv"),
                 ("func/sub-01_ses-01_task-t_run-2_bold.nii.gz", "b_x_2022_04_30_1017.csv")]
    ∧ resolve_times
      [⟨"func/sub-01_ses-01_task-t_run-1_bold.nii.gz", "2022-04-30T10:00:00.0", ""⟩,
       ⟨"func/sub-01_ses-01_task-t_run-2_bold.nii.gz", "2022-04-30T11:00:00.0", ""⟩]
      ["sub-01_ses-01_task-t_run-1_events.tsv", "sub-01_ses-01_task-t_run-2_events.tsv"]
      ["b_x_2022_04_30_1017.csv", "a_x_2022_04_30_1017.csv"] 0 =
      Except.ok [("func/sub-01_ses-01_task-t_run-1_bold.nii.gz", "b_x_2022_04_30_1017.csv"),
                 ("func/sub-01_ses-01_task-t_run-2_bold.nii.gz", "a_x_2022_04_30_1017.csv")] := by
  refine ⟨List.Perm.swap _ _ _, by decide, by decide⟩

end Slang
